import Mathlib

/-!
Shallow embedding of the eDog acoustic event detector (`src/scan.c`) and
verification of the specification claims about it.

Conventions of the embedding:
* C `int16_t` values are modelled as `ℤ` together with the explicit wrap
  `toInt16` (two's-complement truncation) applied exactly where C performs
  an implicit conversion to `int16_t`.
* C `int` values (32-bit) are modelled as `ℤ`; none of the `int`
  computations in scan.c can overflow 32 bits on the reachable ranges, so
  no wrap is applied to them.
* C `float` values are modelled as `ℚ` with exact arithmetic; the decimal
  constants of the source are carried over exactly.
* The `>>` of the source (arithmetic shift on non-negative or gcc-style
  arithmetic shift on negative ints) is `Int`'s `>>>`, which floors.
* The bitwise expressions on promoted `int16_t` values use `Int.xor`,
  `Int.lor` and the shifts on `ℤ`: for values representable in 32 bits,
  two's-complement bitwise operations agree with the bitwise operations on
  the mathematical integers, because sign extension commutes with them.
-/

namespace EDog

/-! ### Constants (macros at the top of scan.c) -/

def SAMPLING_RATE : ℤ := 16000

def MAX_NUM_PEAKS : ℕ := 16

def KNOCK_MAX_SPAN : ℤ := 12000

def KNOCK_MIN_SPAN : ℤ := 4000

def WINDOW_BITS : ℕ := 8

def WINDOW_SIZE : ℕ := 256

def NORMALIZATION_LEVEL : ℤ := 128

def ANALYSIS_INTERVAL : ℤ := 1600

def SCAN_KNOCK_DETECTED : ℕ := 0x1

def SCAN_BELL_DETECTED : ℕ := 0x2

def SCAN_HIGH_SENSITIVITY : ℕ := 0x1

def SCAN_OUTP_DECORR_AUDIO : ℕ := 0x10

def SCAN_OUTP_DECORR_LEVEL : ℕ := 0x20

def SCAN_OUTP_NORMAL_AUDIO : ℕ := 0x40

def SCAN_OUTP_WINDOW_LEVEL : ℕ := 0x80

def SCAN_OUTP_FILTER_AUDIO : ℕ := 0x100

def SCAN_OUTP_FILTER_LEVEL : ℕ := 0x200

/-- KNOCK_MAX_RATIO of scan.c: 1.2 in high-sensitivity mode, 1.1 otherwise. -/
def knock_max_ratio (flags : ℕ) : ℚ :=
  if flags &&& SCAN_HIGH_SENSITIVITY ≠ 0 then 1.2 else 1.1

/-- THRESHOLD_SCALING of scan.c: 1.25 in high-sensitivity mode, 1.5 otherwise. -/
def threshold_scaling (flags : ℕ) : ℚ :=
  if flags &&& SCAN_HIGH_SENSITIVITY ≠ 0 then 1.25 else 1.5

/-- SPURIOUS_REJECTION_RATIO of scan.c: 0.75 in high-sensitivity mode, 0.5 otherwise. -/
def spurious_rejection_ratio (flags : ℕ) : ℚ :=
  if flags &&& SCAN_HIGH_SENSITIVITY ≠ 0 then 0.75 else 0.5

/-! ### Machine-integer helpers -/

/-- Conversion of an integer to the `int16_t` it becomes when stored, i.e.
two's-complement truncation to 16 bits. -/
def toInt16 (v : ℤ) : ℤ := (v + 32768) % 65536 - 32768

/-- Conversion of a C `float` to `int16_t`: truncation toward zero
(`Int.tdiv` truncates toward zero, matching C). -/
def float_to_int16 (q : ℚ) : ℤ := Int.tdiv q.num (q.den : ℤ)

/-! ### Decorrelator (scan.c lines 127-132) -/

/-- The weight adaptation term `(((sample ^ last_sample) >> 30) | 1) << 1`,
computed on the `int`-promoted values. -/
def weight_delta (sample last_sample : ℤ) : ℤ :=
  (Int.lor (Int.xor sample last_sample >>> (30 : ℤ)) 1) <<< (1 : ℤ)

/-- The decorrelation step of scan_audio:
`sample -= (weight * last_sample + 512) >> 10;` followed by the conditional
weight adaptation.  Returns the decorrelated sample (the `int16_t` variable
`sample` after the `-=`) and the new weight (an `int16_t` as well). -/
def decorrelate (weight last_sample x : ℤ) : ℤ × ℤ :=
  let sample := toInt16 (toInt16 x - ((weight * last_sample + 512) >>> (10 : ℤ)))
  let weight' :=
    if sample ≠ 0 ∧ last_sample ≠ 0 then toInt16 (weight + weight_delta sample last_sample)
    else weight
  (sample, weight')

/-- The weight update as claim C4 words it: driven by the raw inputs
`x[n]` and `x[n-1]` (whereas the source drives it by the decorrelated
output and the previous raw input).  Stated from the spec text for
comparison with `decorrelate`. -/
def decorr_weight_claim (weight x_prev x : ℤ) : ℤ :=
  if x ≠ 0 ∧ x_prev ≠ 0 then weight + weight_delta x x_prev else weight

/-! ### Data model (structs of scan.c) -/

/-- struct biquad of scan.c. -/
structure Biquad where
  a0 : ℚ
  a1 : ℚ
  a2 : ℚ
  b1 : ℚ
  b2 : ℚ
  in_d1 : ℚ
  in_d2 : ℚ
  out_d1 : ℚ
  out_d2 : ℚ
deriving Repr, DecidableEq

/-- struct peak of scan.c; `filtered_level` is the bell level sampled when
the excursion opened. -/
structure Peak where
  time : ℤ
  area : ℤ
  width : ℤ
  height : ℤ
  filter_hits : ℤ
  filtered_level : ℚ
deriving Repr, DecidableEq

instance : Inhabited Peak :=
  ⟨{ time := 0, area := 0, width := 0, height := 0, filter_hits := 0, filtered_level := 0 }⟩

/-- The complete mutable state of the scanner: the file-level statics of
scan.c together with the function statics of scan_audio.  `num_peaks` is
represented implicitly as `peak_buffer.length`. -/
structure ScanState where
  bell_biquad : Biquad
  current_peak : Peak
  peak_buffer : List Peak
  sample_window : List ℤ
  sample_index : ℤ
  filtered_level : ℚ
  decorrelated_level : ℚ
  peak_threshold : ℚ
  peak_started : ℤ
  window_index : ℕ
  window_sum : ℤ
  last_sample : ℤ
  weight : ℤ
deriving Repr, DecidableEq

/-! ### Biquad (scan.c lines 382-403) -/

/-- biquad_init of scan.c: the a-coefficients are premultiplied by the gain
and the delays zeroed. -/
def biquad_init (gain a0 a1 a2 b1 b2 : ℚ) : Biquad :=
  { a0 := a0 * gain, a1 := a1 * gain, a2 := a2 * gain, b1 := b1, b2 := b2,
    in_d1 := 0, in_d2 := 0, out_d1 := 0, out_d2 := 0 }

/-- biquad_apply of scan.c: direct-form-I recurrence plus delay shifting.
Returns the updated filter state and the output sample. -/
def biquad_apply (f : Biquad) (input : ℚ) : Biquad × ℚ :=
  let sum := input * f.a0 + f.in_d1 * f.a1 + f.in_d2 * f.a2 - f.b1 * f.out_d1 - f.b2 * f.out_d2
  ({ f with out_d2 := f.out_d1, out_d1 := sum, in_d2 := f.in_d1, in_d1 := input }, sum)

/-- The 770 Hz, Q = 100 bell biquad configured by scan_audio_init. -/
def bell_biquad_770 : Biquad :=
  biquad_init 4.0 0.0014867434962988915 0.0 (-0.0014867434962988915)
    (-1.9064233259820802) 0.9970265130074023

/-- scan_audio_init of scan.c: it (re)initializes the bell biquad and
touches no other state. -/
def scan_audio_init (st : ScanState) : ScanState :=
  { st with bell_biquad := bell_biquad_770 }

/-- The state of a fresh detector: the C statics as initialized at load
time, after the startup call to scan_audio_init. -/
def initState : ScanState :=
  { bell_biquad := bell_biquad_770,
    current_peak := default,
    peak_buffer := [],
    sample_window := List.replicate WINDOW_SIZE 0,
    sample_index := 0,
    filtered_level := 0,
    decorrelated_level := 32760,
    peak_threshold := 30,
    peak_started := 0,
    window_index := 0,
    window_sum := 0,
    last_sample := 0,
    weight := 0 }

/-! ### add_peak (scan.c lines 278-306) -/

/-- The scan for the smallest peak in add_peak: starting from the new
peak's height, remember the index of every strictly smaller height seen;
the result is the first index attaining the strict minimum, or `none` when
no buffered height is below the new peak's. -/
def find_smallest : List Peak → ℕ → ℤ → Option ℕ → Option ℕ
  | [], _, _, best => best
  | p :: rest, i, smallest_height, best =>
    if p.height < smallest_height then find_smallest rest (i + 1) p.height (some i)
    else find_smallest rest (i + 1) smallest_height best

/-- add_peak of scan.c: append the new peak, evicting the smallest
incumbent when the buffer is full, or discarding the new peak when it is
itself the smallest.  (The C `flags` argument only selects debug logging
and is omitted.) -/
def add_peak (peak_buffer : List Peak) (new_peak : Peak) : List Peak :=
  if peak_buffer.length = MAX_NUM_PEAKS then
    match find_smallest peak_buffer 0 new_peak.height none with
    | none => peak_buffer
    | some i => peak_buffer.eraseIdx i ++ [new_peak]
  else peak_buffer ++ [new_peak]

/-! ### Peak extraction (scan.c lines 209-249) -/

/-- Result of the per-sample peak-extraction block. `closed` reports the
value of `current_peak` at the moment an excursion closed this sample
(`none` otherwise); it is an observer used to state invariants and does
not influence the state. -/
structure PeakStageResult where
  peak_started : ℤ
  current_peak : Peak
  peak_threshold : ℚ
  peak_buffer : List Peak
  closed : Option Peak
deriving Repr, DecidableEq

/-- The close-and-accept logic of scan.c lines 232-245: bump the threshold
when the height beats it, then insert via add_peak when the height also
beats the bumped threshold times the scaling. -/
def close_peak (current_peak : Peak) (peak_threshold : ℚ) (peak_buffer : List Peak)
    (flags : ℕ) : ℚ × List Peak × Peak :=
  if (current_peak.height : ℚ) > peak_threshold then
    let bumped := peak_threshold * 1.01
    if (current_peak.height : ℚ) > bumped * threshold_scaling flags then
      let accepted := { current_peak with width := Int.tdiv current_peak.area current_peak.height }
      (bumped, add_peak peak_buffer accepted, accepted)
    else (bumped, peak_buffer, current_peak)
  else (peak_threshold, peak_buffer, current_peak)

/-- The peak-extraction block of scan_audio (lines 209-249), acting on
`peak_started`, `current_peak`, `peak_threshold` and the peak buffer, and
reading the windowed level, bell level and sample index. -/
def peak_stage (peak_started : ℤ) (current_peak : Peak) (window_level : ℤ)
    (filtered_level : ℚ) (sample_index : ℤ) (peak_threshold : ℚ)
    (peak_buffer : List Peak) (flags : ℕ) : PeakStageResult :=
  if peak_started ≠ 0 ∨ window_level > 0 then
    if peak_started = 0 then
      { peak_started := peak_started + 1,
        current_peak :=
          { time := sample_index, area := window_level, width := current_peak.width,
            height := window_level, filter_hits := 0, filtered_level := filtered_level },
        peak_threshold := peak_threshold, peak_buffer := peak_buffer, closed := none }
    else if window_level > current_peak.height then
      { peak_started := peak_started,
        current_peak := { current_peak with time := sample_index, height := window_level },
        peak_threshold := peak_threshold, peak_buffer := peak_buffer, closed := none }
    else if window_level ≤ 0 then
      let c := close_peak current_peak peak_threshold peak_buffer flags
      { peak_started := 0, current_peak := c.2.2, peak_threshold := c.1,
        peak_buffer := c.2.1, closed := some current_peak }
    else
      { peak_started := peak_started,
        current_peak := { current_peak with area := current_peak.area + window_level },
        peak_threshold := peak_threshold, peak_buffer := peak_buffer, closed := none }
  else
    { peak_started := peak_started, current_peak := current_peak,
      peak_threshold := peak_threshold, peak_buffer := peak_buffer, closed := none }

/-! ### check_peaks (scan.c lines 313-377) -/

/-- The expiry loop at the top of check_peaks: drop leading peaks whose
`time + KNOCK_MAX_SPAN * 2` is before the current sample index. -/
def expire_peaks : List Peak → ℤ → List Peak
  | [], _ => []
  | p :: rest, sample_index =>
    if p.time + KNOCK_MAX_SPAN * 2 < sample_index then expire_peaks rest sample_index
    else p :: rest

/-- The body of the knock triple test (scan.c lines 327-349) for buffer
indices `p1 p2 p3`: span window, widths, post-roll, the spurious-peak
rejection loop, and the spacing-ratio gate, in the source's order. -/
def knock_triple_hit (peak_buffer : List Peak) (sample_index : ℤ) (flags : ℕ)
    (p1 p2 p3 : ℕ) : Bool :=
  let b := fun i => peak_buffer.getD i default
  let span := (b p3).time - (b p1).time
  let d1 := (b p2).time - (b p1).time
  let d2 := (b p3).time - (b p2).time
  let ratio : ℚ := if d1 > d2 then (d1 : ℚ) / (d2 : ℚ) else (d2 : ℚ) / (d1 : ℚ)
  let mh0 : ℚ := ((b p1).height : ℚ)
  let mh1 : ℚ := if ((b p2).height : ℚ) < mh0 then ((b p2).height : ℚ) else mh0
  let mh2 : ℚ := if ((b p3).height : ℚ) < mh1 then ((b p3).height : ℚ) else mh1
  let min_height : ℚ := mh2 * spurious_rejection_ratio flags
  decide (span > KNOCK_MIN_SPAN) && decide (span < KNOCK_MAX_SPAN) &&
  decide ((b p1).width < 512) && decide ((b p2).width < 512) && decide ((b p3).width < 512) &&
  decide ((b p3).time + Int.tdiv span 2 < sample_index) &&
  ((List.range peak_buffer.length).all fun i =>
    !(decide (i ≠ p1) && decide (i ≠ p2) && decide (i ≠ p3) &&
      decide ((b i).time > (b p1).time - Int.tdiv span 3) &&
      decide ((b i).time < (b p3).time + Int.tdiv span 3) &&
      decide (((b i).height : ℚ) > min_height))) &&
  decide (ratio < knock_max_ratio flags)

/-- The triple-nested knock search of check_peaks (lines 324-361).  The C
loops stop at the first hit, but no state is modified before that hit and
each condition reads only the unmodified buffer, so the detection outcome
equals this existence check over all index triples `p1 < p2 < p3`. -/
def check_knock (peak_buffer : List Peak) (sample_index : ℤ) (flags : ℕ) : Bool :=
  (List.range peak_buffer.length).any fun p1 =>
    (List.range peak_buffer.length).any fun p2 =>
      (List.range peak_buffer.length).any fun p3 =>
        decide (p1 < p2) && decide (p2 < p3) &&
        knock_triple_hit peak_buffer sample_index flags p1 p2 p3

/-- The knock phase of check_peaks: on a hit the KNOCK bit is returned and
the buffer emptied (`num_peaks = 0`). -/
def knock_phase (peak_buffer : List Peak) (sample_index : ℤ) (flags : ℕ) :
    List Peak × ℕ :=
  if check_knock peak_buffer sample_index flags then ([], SCAN_KNOCK_DETECTED)
  else (peak_buffer, 0)

/-- The per-peak bell condition of check_peaks line 364: the peak opened
less than one second ago and the current bell level exceeds twice the
peak's baseline plus 50. -/
def bell_hit (p : Peak) (filtered_level : ℚ) (sample_index : ℤ) : Bool :=
  decide (p.time + SAMPLING_RATE > sample_index) &&
  decide (filtered_level > p.filtered_level * 2 + 50)

/-- The bell loop of check_peaks (lines 363-374): scan the buffer in
order, incrementing `filter_hits` of each hit peak; when an incremented
counter reaches 5, return the BELL bit and empty the buffer. -/
def bell_scan (filtered_level : ℚ) (sample_index : ℤ) : List Peak → List Peak × ℕ
  | [] => ([], 0)
  | p :: rest =>
    if bell_hit p filtered_level sample_index then
      let p' := { p with filter_hits := p.filter_hits + 1 }
      if p'.filter_hits = 5 then ([], SCAN_BELL_DETECTED)
      else
        let r := bell_scan filtered_level sample_index rest
        (if r.2 ≠ 0 then [] else p' :: r.1, r.2)
    else
      let r := bell_scan filtered_level sample_index rest
      (if r.2 ≠ 0 then [] else p :: r.1, r.2)

/-- check_peaks of scan.c: expiry, then the knock search, then the bell
scan; the detection bits are OR'd together.  Only the peak buffer of the
state is modified. -/
def check_peaks (st : ScanState) (flags : ℕ) : ScanState × ℕ :=
  let buf0 := expire_peaks st.peak_buffer st.sample_index
  let k := knock_phase buf0 st.sample_index flags
  let r := bell_scan st.filtered_level st.sample_index k.1
  ({ st with peak_buffer := r.1 }, k.2 ||| r.2)

/-! ### The per-sample body of scan_audio (lines 119-269) -/

/-- The per-sample part of the scan_audio loop body before the periodic
analysis: decorrelation, level tracking, normalization, window update,
bell filtering and peak extraction, plus the increment of `sample_index`.
`has_out` models whether the `out_samples` pointer is non-NULL; the
returned list holds the values written through it this sample, in tap
order. -/
def step_sample (st : ScanState) (x : ℤ) (has_out : Bool) (flags : ℕ) :
    ScanState × List ℤ :=
  let dec := decorrelate st.weight st.last_sample x
  let sample := dec.1
  let out1 := if has_out = true ∧ flags &&& SCAN_OUTP_DECORR_AUDIO ≠ 0 then [sample] else []
  let decorrelated_level' :=
    st.decorrelated_level * (255 / 256) + ((|sample| : ℤ) : ℚ) * (1 / 256)
  let out2 :=
    if has_out = true ∧ flags &&& SCAN_OUTP_DECORR_LEVEL ≠ 0 then
      [float_to_int16 decorrelated_level'] else []
  let normalized0 : ℚ := (sample : ℚ) / decorrelated_level' * (NORMALIZATION_LEVEL : ℚ)
  let normalized_sample : ℚ :=
    if normalized0 > 32760 then 32760 else if normalized0 < -32760 then -32760 else normalized0
  let out3 :=
    if has_out = true ∧ flags &&& SCAN_OUTP_NORMAL_AUDIO ≠ 0 then
      [float_to_int16 normalized_sample] else []
  let entry := float_to_int16 |normalized_sample|
  let window_sum' := st.window_sum - st.sample_window.getD st.window_index 0 + entry
  let sample_window' := st.sample_window.set st.window_index entry
  let window_index' := (st.window_index + 1) % WINDOW_SIZE
  let window_level := toInt16 ((window_sum' + 128) >>> (8 : ℤ) - NORMALIZATION_LEVEL)
  let out4 :=
    if has_out = true ∧ flags &&& SCAN_OUTP_WINDOW_LEVEL ≠ 0 then [window_level] else []
  let bq := biquad_apply st.bell_biquad normalized_sample
  let filtered_sample := bq.2
  let out5 :=
    if has_out = true ∧ flags &&& SCAN_OUTP_FILTER_AUDIO ≠ 0 then
      [if filtered_sample > 32760 then 32760
       else if filtered_sample < -32760 then -32760
       else float_to_int16 filtered_sample] else []
  let filtered_level' := st.filtered_level * (255 / 256) + |filtered_sample| * (1 / 256)
  let out6 :=
    if has_out = true ∧ flags &&& SCAN_OUTP_FILTER_LEVEL ≠ 0 then
      [float_to_int16 filtered_level'] else []
  let ps := peak_stage st.peak_started st.current_peak window_level filtered_level'
    st.sample_index st.peak_threshold st.peak_buffer flags
  let sample_index' := st.sample_index + 1
  let st1 : ScanState :=
    { bell_biquad := bq.1, current_peak := ps.current_peak,
      peak_buffer := ps.peak_buffer, sample_window := sample_window',
      sample_index := sample_index', filtered_level := filtered_level',
      decorrelated_level := decorrelated_level', peak_threshold := ps.peak_threshold,
      peak_started := ps.peak_started, window_index := window_index',
      window_sum := window_sum', last_sample := toInt16 x, weight := dec.2 }
  (st1, out1 ++ out2 ++ out3 ++ out4 ++ out5 ++ out6)

/-- One iteration of the scan_audio sample loop: the per-sample stage,
then — when the incremented sample index is a multiple of the analysis
interval — check_peaks followed by the 0.999 threshold decay, and finally
the idle 24-hour wrap of the sample index. -/
def step (st : ScanState) (x : ℤ) (has_out : Bool) (flags : ℕ) :
    ScanState × ℕ × List ℤ :=
  let s1 := step_sample st x has_out flags
  let st1 := s1.1
  let cp := check_peaks st1 flags
  let st2 :=
    if st1.sample_index % ANALYSIS_INTERVAL = 0 then
      { cp.1 with peak_threshold := cp.1.peak_threshold * 0.999 }
    else st1
  let detections := if st1.sample_index % ANALYSIS_INTERVAL = 0 then cp.2 else 0
  let st3 :=
    if st2.sample_index > SAMPLING_RATE * 3600 * 24 ∧ st2.peak_buffer.length = 0 ∧
        st2.peak_started = 0 then
      { st2 with sample_index := st2.sample_index % (SAMPLING_RATE * 3600 * 24) }
    else st2
  (st3, detections, s1.2)

/-- scan_audio of scan.c on a batch of samples: fold `step` over the batch,
OR-ing the detection bits, concatenating the diagnostic writes. -/
def scan_audio (st : ScanState) (in_samples : List ℤ) (has_out : Bool) (flags : ℕ) :
    ScanState × ℕ × List ℤ :=
  match in_samples with
  | [] => (st, 0, [])
  | x :: rest =>
    let r1 := step st x has_out flags
    let r2 := scan_audio r1.1 rest has_out flags
    (r2.1, r1.2.1 ||| r2.2.1, r1.2.2 ++ r2.2.2)

/-- Feeding a sequence of batches to scan_audio in order, OR-ing the
returned detection masks and concatenating the diagnostic output. -/
def scan_batches (st : ScanState) (batches : List (List ℤ)) (has_out : Bool) (flags : ℕ) :
    ScanState × ℕ × List ℤ :=
  match batches with
  | [] => (st, 0, [])
  | b :: rest =>
    let r1 := scan_audio st b has_out flags
    let r2 := scan_batches r1.1 rest has_out flags
    (r2.1, r1.2.1 ||| r2.2.1, r1.2.2 ++ r2.2.2)

/-! ### Specification-side definitions and invariants used by the claims -/

/-- The knock conditions for an ordered triple of buffer indices as claim
C1 words them: span strictly between the knock bounds, all three widths
below 512, post-roll of half a span elapsed, no other buffered peak inside
the interval widened by a third of the span taller than the smallest of
the triple scaled by the rejection ratio, and spacing ratio `max/min`
below the mode's bound. -/
def knock_triple_claim (peak_buffer : List Peak) (sample_index : ℤ) (flags : ℕ)
    (p1 p2 p3 : ℕ) : Prop :=
  let b := fun i => peak_buffer.getD i default
  let span := (b p3).time - (b p1).time
  let d1 := (b p2).time - (b p1).time
  let d2 := (b p3).time - (b p2).time
  KNOCK_MIN_SPAN < span ∧ span < KNOCK_MAX_SPAN ∧
  (b p1).width < 512 ∧ (b p2).width < 512 ∧ (b p3).width < 512 ∧
  (b p3).time + Int.tdiv span 2 < sample_index ∧
  (∀ i < peak_buffer.length,
    ¬(i ≠ p1 ∧ i ≠ p2 ∧ i ≠ p3 ∧
      (b i).time > (b p1).time - Int.tdiv span 3 ∧
      (b i).time < (b p3).time + Int.tdiv span 3 ∧
      ((b i).height : ℚ) >
        ((min (b p1).height (min (b p2).height (b p3).height) : ℤ) : ℚ) *
          spurious_rejection_ratio flags)) ∧
  ((max d1 d2 : ℤ) : ℚ) / ((min d1 d2 : ℤ) : ℚ) < knock_max_ratio flags

/-- Running the peak-extraction stage over a stream of per-sample inputs
(window level, bell level, sample index), collecting the record of every
excursion at the moment it closes. -/
def peak_stage_run (peak_started : ℤ) (current_peak : Peak) (peak_threshold : ℚ)
    (peak_buffer : List Peak) (flags : ℕ) : List (ℤ × ℚ × ℤ) → List Peak
  | [] => []
  | (window_level, filtered_level, sample_index) :: rest =>
    let r := peak_stage peak_started current_peak window_level filtered_level sample_index
      peak_threshold peak_buffer flags
    r.closed.toList ++
      peak_stage_run r.peak_started r.current_peak r.peak_threshold r.peak_buffer flags rest

/-- The window bookkeeping invariant: 256 slots, index in range, and the
running sum equal to the arithmetic sum of the slots. -/
def window_inv (st : ScanState) : Prop :=
  st.sample_window.length = WINDOW_SIZE ∧ st.window_index < WINDOW_SIZE ∧
    st.window_sum = st.sample_window.sum

/-! ### Helper lemmas -/

theorem toInt16_lb (v : ℤ) : -32768 ≤ toInt16 v := by
  unfold toInt16; omega

theorem toInt16_ub (v : ℤ) : toInt16 v < 32768 := by
  unfold toInt16; omega

/-- The weight adaptation term evaluates to `+2` when the two operands
have equal sign and to `-2` otherwise, for 16-bit-range operands. -/
theorem weight_delta_sign (s l : ℤ) (hs₁ : -32768 ≤ s) (hs₂ : s < 32768)
    (hl₁ : -32768 ≤ l) (hl₂ : l < 32768) :
    weight_delta s l = if 0 ≤ s ↔ 0 ≤ l then 2 else -2 := by
  have h30 : (30 : ℤ) = ((30 : ℕ) : ℤ) := rfl
  have hlor1 : Int.lor 0 1 = 1 := by with_unfolding_all decide
  have hlor2 : Int.lor (Int.negSucc 0) 1 = Int.negSucc 0 := by with_unfolding_all decide
  have hshl1 : (1 : ℤ) <<< (1 : ℤ) = 2 := by with_unfolding_all decide
  have hshl2 : (Int.negSucc 0) <<< (1 : ℤ) = -2 := by with_unfolding_all decide
  rcases s with m | m <;> rcases l with n | n
  · have hm : m < 2 ^ 16 := by
      have h := hs₂; rw [show Int.ofNat m = (m : ℤ) from rfl] at h; omega
    have hn : n < 2 ^ 16 := by
      have h := hl₂; rw [show Int.ofNat n = (n : ℤ) from rfl] at h; omega
    have hlt : (m ^^^ n) < 2 ^ 30 :=
      lt_of_lt_of_le (Nat.xor_lt_two_pow hm hn) (by norm_num)
    have hxor : Int.xor (Int.ofNat m) (Int.ofNat n) = ((m ^^^ n : ℕ) : ℤ) := rfl
    have hsh : ((m ^^^ n : ℕ) : ℤ) >>> (30 : ℤ) = ((0 : ℕ) : ℤ) := by
      rw [h30, Int.shiftRight_coe_nat, Nat.shiftRight_eq_div_pow, Nat.div_eq_of_lt hlt]
    have hcond : 0 ≤ Int.ofNat m ↔ 0 ≤ Int.ofNat n :=
      ⟨fun _ => Int.ofNat_nonneg n, fun _ => Int.ofNat_nonneg m⟩
    simp only [weight_delta, hxor, hsh, if_pos hcond]
    rw [show ((0 : ℕ) : ℤ) = (0 : ℤ) from rfl, hlor1, hshl1]
  · have hm : m < 2 ^ 16 := by
      have h := hs₂; rw [show Int.ofNat m = (m : ℤ) from rfl] at h; omega
    have hn : n < 2 ^ 16 := by
      have h := hl₁; rw [Int.negSucc_eq] at h; omega
    have hlt : (m ^^^ n) < 2 ^ 30 :=
      lt_of_lt_of_le (Nat.xor_lt_two_pow hm hn) (by norm_num)
    have hxor : Int.xor (Int.ofNat m) (Int.negSucc n) = Int.negSucc (m ^^^ n) := rfl
    have hsh : Int.negSucc (m ^^^ n) >>> (30 : ℤ) = Int.negSucc 0 := by
      rw [h30, Int.shiftRight_negSucc, Nat.shiftRight_eq_div_pow, Nat.div_eq_of_lt hlt]
    have hcond : ¬(0 ≤ Int.ofNat m ↔ 0 ≤ Int.negSucc n) := by
      intro h
      exact absurd (h.mp (Int.ofNat_nonneg m)) (not_le.mpr (Int.negSucc_lt_zero n))
    simp only [weight_delta, hxor, hsh, if_neg hcond, hlor2, hshl2]
  · have hm : m < 2 ^ 16 := by
      have h := hs₁; rw [Int.negSucc_eq] at h; omega
    have hn : n < 2 ^ 16 := by
      have h := hl₂; rw [show Int.ofNat n = (n : ℤ) from rfl] at h; omega
    have hlt : (m ^^^ n) < 2 ^ 30 :=
      lt_of_lt_of_le (Nat.xor_lt_two_pow hm hn) (by norm_num)
    have hxor : Int.xor (Int.negSucc m) (Int.ofNat n) = Int.negSucc (m ^^^ n) := rfl
    have hsh : Int.negSucc (m ^^^ n) >>> (30 : ℤ) = Int.negSucc 0 := by
      rw [h30, Int.shiftRight_negSucc, Nat.shiftRight_eq_div_pow, Nat.div_eq_of_lt hlt]
    have hcond : ¬(0 ≤ Int.negSucc m ↔ 0 ≤ Int.ofNat n) := by
      intro h
      exact absurd (h.mpr (Int.ofNat_nonneg n)) (not_le.mpr (Int.negSucc_lt_zero m))
    simp only [weight_delta, hxor, hsh, if_neg hcond, hlor2, hshl2]
  · have hm : m < 2 ^ 16 := by
      have h := hs₁; rw [Int.negSucc_eq] at h; omega
    have hn : n < 2 ^ 16 := by
      have h := hl₁; rw [Int.negSucc_eq] at h; omega
    have hlt : (m ^^^ n) < 2 ^ 30 :=
      lt_of_lt_of_le (Nat.xor_lt_two_pow hm hn) (by norm_num)
    have hxor : Int.xor (Int.negSucc m) (Int.negSucc n) = ((m ^^^ n : ℕ) : ℤ) := rfl
    have hsh : ((m ^^^ n : ℕ) : ℤ) >>> (30 : ℤ) = ((0 : ℕ) : ℤ) := by
      rw [h30, Int.shiftRight_coe_nat, Nat.shiftRight_eq_div_pow, Nat.div_eq_of_lt hlt]
    have hcond : 0 ≤ Int.negSucc m ↔ 0 ≤ Int.negSucc n := by
      constructor <;> intro h
      · exact absurd h (not_le.mpr (Int.negSucc_lt_zero m))
      · exact absurd h (not_le.mpr (Int.negSucc_lt_zero n))
    simp only [weight_delta, hxor, hsh, if_pos hcond]
    rw [show ((0 : ℕ) : ℤ) = (0 : ℤ) from rfl, hlor1, hshl1]

end EDog

namespace EDog

/-! ### Claim C4: the decorrelator -/

/-- Counterexample to claim C4: with weight 4 and previous raw input 768
(the state reached from reset after inputs 1, 1, 768), the next input 1
leaves weight 2 in the code — the decorrelated sample is `-2`, whose sign
disagrees with the raw inputs — while the claim's raw-input-driven update
prescribes weight 6. -/
theorem C4_counterexample :
    (scan_audio initState [1, 1, 768] false 0).1.weight = 4 ∧
    (scan_audio initState [1, 1, 768] false 0).1.last_sample = 768 ∧
    (scan_audio initState [1, 1, 768, 1] false 0).1.weight = 2 ∧
    decorr_weight_claim 4 768 1 = 6 := by
  refine ⟨?_, ?_, ?_, ?_⟩ <;> with_unfolding_all decide

/-- Claim C4 as amended: the decorrelator outputs
`y[n] = x[n] - ((weight * x[n-1] + 512) >> 10)` truncated to `int16_t`,
and when both the decorrelated output `y[n]` and the previous raw input
`x[n-1]` are nonzero, the weight changes by +2 or -2 according to the sign
agreement of `y[n]` and `x[n-1]` (not of the raw inputs). -/
theorem C4_decorrelate_sign (weight last_sample x : ℤ)
    (hl₁ : -32768 ≤ last_sample) (hl₂ : last_sample < 32768) :
    (decorrelate weight last_sample x).1
      = toInt16 (toInt16 x - ((weight * last_sample + 512) >>> (10 : ℤ))) ∧
    (decorrelate weight last_sample x).2
      = (if (decorrelate weight last_sample x).1 ≠ 0 ∧ last_sample ≠ 0 then
          toInt16 (weight +
            (if 0 ≤ (decorrelate weight last_sample x).1 ↔ 0 ≤ last_sample then 2 else -2))
        else weight) := by
  refine ⟨rfl, ?_⟩
  show (if _ ∧ _ then toInt16 (weight + weight_delta _ last_sample) else weight) = _
  rw [weight_delta_sign _ last_sample (toInt16_lb _) (toInt16_ub _) hl₁ hl₂]
  rfl

/-- Witness for C4_decorrelate_sign at a concrete input. -/
theorem C4_decorrelate_sign_witness :
    (-32768 ≤ (768 : ℤ) ∧ (768 : ℤ) < 32768) ∧
    ((decorrelate 4 768 1).1
      = toInt16 (toInt16 1 - ((4 * 768 + 512) >>> (10 : ℤ))) ∧
    (decorrelate 4 768 1).2
      = (if (decorrelate 4 768 1).1 ≠ 0 ∧ (768 : ℤ) ≠ 0 then
          toInt16 (4 + (if 0 ≤ (decorrelate 4 768 1).1 ↔ 0 ≤ (768 : ℤ) then 2 else -2))
        else 4)) :=
  ⟨⟨by decide, by decide⟩, C4_decorrelate_sign 4 768 1 (by decide) (by decide)⟩

end EDog

namespace EDog

/-! ### Claim C2: bell confirmation -/

theorem bell_hit_iff (p : Peak) (filtered_level : ℚ) (sample_index : ℤ) :
    bell_hit p filtered_level sample_index = true ↔
      p.time + 16000 > sample_index ∧ filtered_level > 2 * p.filtered_level + 50 := by
  simp only [bell_hit, SAMPLING_RATE, Bool.and_eq_true, decide_eq_true_eq]
  rw [mul_comm]

/-- Closed-form description of the bell loop: when some hit peak's counter
reaches 5 the result is the BELL bit with an empty buffer; otherwise every
hit peak's counter is incremented and no detection is returned. -/
theorem bell_scan_eq (filtered_level : ℚ) (sample_index : ℤ) (buf : List Peak) :
    bell_scan filtered_level sample_index buf =
      if ∃ p ∈ buf, bell_hit p filtered_level sample_index = true ∧ p.filter_hits + 1 = 5 then
        ([], SCAN_BELL_DETECTED)
      else
        (buf.map fun p =>
          if bell_hit p filtered_level sample_index then
            { p with filter_hits := p.filter_hits + 1 }
          else p, 0) := by
  induction buf with
  | nil => simp [bell_scan]
  | cons p rest ih =>
    by_cases hhit : bell_hit p filtered_level sample_index = true
    · by_cases h5 : p.filter_hits + 1 = 5
      · have hex : ∃ q ∈ p :: rest,
            bell_hit q filtered_level sample_index = true ∧ q.filter_hits + 1 = 5 :=
          ⟨p, List.mem_cons_self p rest, hhit, h5⟩
        rw [if_pos hex]
        simp only [bell_scan, hhit, if_true]
        rw [if_pos (by simpa using h5)]
      · by_cases hex : ∃ q ∈ rest,
            bell_hit q filtered_level sample_index = true ∧ q.filter_hits + 1 = 5
        · have hex' : ∃ q ∈ p :: rest,
              bell_hit q filtered_level sample_index = true ∧ q.filter_hits + 1 = 5 := by
            obtain ⟨q, hq, hh⟩ := hex
            exact ⟨q, List.mem_cons_of_mem p hq, hh⟩
          rw [if_pos hex']
          simp only [bell_scan, hhit, if_true]
          rw [if_neg (by simpa using h5), ih, if_pos hex]
          simp [SCAN_BELL_DETECTED]
        · have hex' : ¬∃ q ∈ p :: rest,
              bell_hit q filtered_level sample_index = true ∧ q.filter_hits + 1 = 5 := by
            rintro ⟨q, hq, hh, hq5⟩
            rcases List.mem_cons.mp hq with rfl | hq
            · exact h5 hq5
            · exact hex ⟨q, hq, hh, hq5⟩
          rw [if_neg hex']
          simp only [bell_scan, hhit, if_true]
          rw [if_neg (by simpa using h5), ih, if_neg hex]
          simp [hhit]
    · by_cases hex : ∃ q ∈ rest,
          bell_hit q filtered_level sample_index = true ∧ q.filter_hits + 1 = 5
      · have hex' : ∃ q ∈ p :: rest,
            bell_hit q filtered_level sample_index = true ∧ q.filter_hits + 1 = 5 := by
          obtain ⟨q, hq, hh⟩ := hex
          exact ⟨q, List.mem_cons_of_mem p hq, hh⟩
        rw [if_pos hex']
        simp only [bell_scan, hhit, Bool.false_eq_true, if_false]
        rw [ih, if_pos hex]
        simp [SCAN_BELL_DETECTED]
      · have hex' : ¬∃ q ∈ p :: rest,
            bell_hit q filtered_level sample_index = true ∧ q.filter_hits + 1 = 5 := by
          rintro ⟨q, hq, hh, hq5⟩
          rcases List.mem_cons.mp hq with rfl | hq
          · exact hhit hh
          · exact hex ⟨q, hq, hh, hq5⟩
        rw [if_neg hex']
        simp only [bell_scan, hhit, Bool.false_eq_true, if_false]
        rw [ih, if_neg hex]
        simp [hhit]

/-- Claim C2: at an analysis tick, each buffered peak within one second of
onset whose baseline is beaten by the current bell level (strictly more
than twice the baseline plus 50) gets `filter_hits` incremented, and the
BELL bit is returned with the buffer emptied exactly when some such peak's
incremented counter reaches 5. -/
theorem C2_bell_confirmation (buf : List Peak) (filtered_level : ℚ) (sample_index : ℤ) :
    ((bell_scan filtered_level sample_index buf).2 = SCAN_BELL_DETECTED ↔
      ∃ p ∈ buf, (p.time + 16000 > sample_index ∧
        filtered_level > 2 * p.filtered_level + 50) ∧ p.filter_hits + 1 = 5) ∧
    ((bell_scan filtered_level sample_index buf).2 = SCAN_BELL_DETECTED →
      (bell_scan filtered_level sample_index buf).1 = []) ∧
    ((bell_scan filtered_level sample_index buf).2 ≠ SCAN_BELL_DETECTED →
      (bell_scan filtered_level sample_index buf).1 =
        buf.map fun p =>
          if p.time + 16000 > sample_index ∧ filtered_level > 2 * p.filtered_level + 50 then
            { p with filter_hits := p.filter_hits + 1 }
          else p) := by
  have heq := bell_scan_eq filtered_level sample_index buf
  have hmap : (buf.map fun p =>
      if bell_hit p filtered_level sample_index then
        { p with filter_hits := p.filter_hits + 1 }
      else p) =
      buf.map fun p =>
        if p.time + 16000 > sample_index ∧ filtered_level > 2 * p.filtered_level + 50 then
          { p with filter_hits := p.filter_hits + 1 }
        else p := by
    apply List.map_congr_left
    intro q _
    by_cases hh : bell_hit q filtered_level sample_index = true
    · rw [if_pos hh, if_pos ((bell_hit_iff _ _ _).mp hh)]
    · rw [if_neg hh, if_neg (fun hc => hh ((bell_hit_iff _ _ _).mpr hc))]
  by_cases hex : ∃ p ∈ buf,
      bell_hit p filtered_level sample_index = true ∧ p.filter_hits + 1 = 5
  · rw [heq, if_pos hex]
    refine ⟨⟨fun _ => ?_, fun _ => rfl⟩, fun _ => rfl, fun hne => absurd rfl hne⟩
    obtain ⟨q, hq, hh, hq5⟩ := hex
    exact ⟨q, hq, (bell_hit_iff _ _ _).mp hh, hq5⟩
  · rw [heq, if_neg hex]
    have hne : (0 : ℕ) ≠ SCAN_BELL_DETECTED := by simp [SCAN_BELL_DETECTED]
    refine ⟨⟨fun h => absurd h hne, ?_⟩, fun h => absurd h hne, fun _ => hmap⟩
    rintro ⟨q, hq, helig, hq5⟩
    exact absurd ⟨q, hq, (bell_hit_iff _ _ _).mpr helig, hq5⟩ hex

end EDog

namespace EDog

/-! ### Claim C1: the knock pattern -/

theorem ite_lt_min (a b : ℚ) : (if b < a then b else a) = min a b := by
  rcases le_or_lt a b with h | h
  · rw [if_neg (not_lt.mpr h), min_eq_left h]
  · rw [if_pos h, min_eq_right h.le]

theorem ite_div_max_min (d1 d2 : ℤ) :
    (if d1 > d2 then (d1 : ℚ) / (d2 : ℚ) else (d2 : ℚ) / (d1 : ℚ)) =
      ((max d1 d2 : ℤ) : ℚ) / ((min d1 d2 : ℤ) : ℚ) := by
  push_cast
  rcases le_or_lt d1 d2 with h | h
  · rw [if_neg (not_lt.mpr h), max_eq_right (by exact_mod_cast h), min_eq_left (by exact_mod_cast h)]
  · rw [if_pos h, max_eq_left (by exact_mod_cast h.le), min_eq_right (by exact_mod_cast h.le)]

theorem ite_min_chain (h1 h2 h3 : ℤ) :
    (if (h3 : ℚ) < (if (h2 : ℚ) < (h1 : ℚ) then (h2 : ℚ) else (h1 : ℚ)) then (h3 : ℚ)
     else if (h2 : ℚ) < (h1 : ℚ) then (h2 : ℚ) else (h1 : ℚ)) =
      ((min h1 (min h2 h3) : ℤ) : ℚ) := by
  rw [ite_lt_min, ite_lt_min]
  push_cast
  rw [min_assoc]

theorem knock_triple_hit_iff (peak_buffer : List Peak) (sample_index : ℤ) (flags : ℕ)
    (p1 p2 p3 : ℕ) :
    knock_triple_hit peak_buffer sample_index flags p1 p2 p3 = true ↔
      knock_triple_claim peak_buffer sample_index flags p1 p2 p3 := by
  simp only [knock_triple_hit, knock_triple_claim]
  rw [ite_div_max_min, ite_min_chain]
  simp only [Bool.and_eq_true, decide_eq_true_eq, List.all_eq_true, List.mem_range,
    Bool.not_eq_true', Bool.eq_false_iff, ne_eq, gt_iff_lt, and_assoc]

end EDog

namespace EDog

theorem check_knock_iff (peak_buffer : List Peak) (sample_index : ℤ) (flags : ℕ) :
    check_knock peak_buffer sample_index flags = true ↔
      ∃ p1 p2 p3, p1 < p2 ∧ p2 < p3 ∧ p3 < peak_buffer.length ∧
        knock_triple_claim peak_buffer sample_index flags p1 p2 p3 := by
  unfold check_knock
  simp only [List.any_eq_true, List.mem_range, Bool.and_eq_true, decide_eq_true_eq,
    knock_triple_hit_iff]
  constructor
  · rintro ⟨p1, _, p2, _, p3, hp3, ⟨h12, h23⟩, h⟩
    exact ⟨p1, p2, p3, h12, h23, hp3, h⟩
  · rintro ⟨p1, p2, p3, h12, h23, hp3, h⟩
    exact ⟨p1, lt_trans (lt_trans h12 h23) hp3, p2, lt_trans h23 hp3, p3, hp3, ⟨h12, h23⟩, h⟩

/-- Claim C1: at an analysis tick, the knock search returns the KNOCK bit,
clears the peak buffer and stops exactly when some ordered triple
`p1 < p2 < p3` of buffered peaks satisfies the span, width, post-roll,
isolation and spacing-ratio conditions; otherwise the buffer is left
unchanged. -/
theorem C1_knock_pattern (peak_buffer : List Peak) (sample_index : ℤ) (flags : ℕ) :
    ((knock_phase peak_buffer sample_index flags).2 = SCAN_KNOCK_DETECTED ↔
      ∃ p1 p2 p3, p1 < p2 ∧ p2 < p3 ∧ p3 < peak_buffer.length ∧
        knock_triple_claim peak_buffer sample_index flags p1 p2 p3) ∧
    ((knock_phase peak_buffer sample_index flags).2 = SCAN_KNOCK_DETECTED →
      (knock_phase peak_buffer sample_index flags).1 = []) ∧
    ((knock_phase peak_buffer sample_index flags).2 ≠ SCAN_KNOCK_DETECTED →
      (knock_phase peak_buffer sample_index flags).1 = peak_buffer) := by
  unfold knock_phase
  by_cases h : check_knock peak_buffer sample_index flags = true
  · rw [if_pos h]
    exact ⟨⟨fun _ => (check_knock_iff _ _ _).mp h, fun _ => rfl⟩, fun _ => rfl,
      fun hne => absurd rfl hne⟩
  · rw [if_neg h]
    have hne : (0 : ℕ) ≠ SCAN_KNOCK_DETECTED := by simp [SCAN_KNOCK_DETECTED]
    refine ⟨⟨fun hc => absurd hc hne, fun hex => ?_⟩, fun hc => absurd hc hne, fun _ => rfl⟩
    exact absurd ((check_knock_iff _ _ _).mpr hex) h

end EDog

namespace EDog

/-! ### Claim C3: threshold adaptation and peak acceptance -/

theorem find_smallest_some_ne_none (l : List Peak) :
    ∀ (i : ℕ) (sh : ℤ) (j : ℕ), find_smallest l i sh (some j) ≠ none := by
  induction l with
  | nil => intro i sh j h; exact Option.some_ne_none j h
  | cons p rest ih =>
    intro i sh j
    simp only [find_smallest]
    split
    · exact ih (i + 1) p.height i
    · exact ih (i + 1) sh j

theorem find_smallest_none_iff (l : List Peak) :
    ∀ (i : ℕ) (sh : ℤ), find_smallest l i sh none = none ↔ ∀ p ∈ l, ¬(p.height < sh) := by
  induction l with
  | nil => intro i sh; simp [find_smallest]
  | cons p rest ih =>
    intro i sh
    simp only [find_smallest]
    by_cases h : p.height < sh
    · rw [if_pos h]
      constructor
      · intro hc; exact absurd hc (find_smallest_some_ne_none rest (i + 1) p.height i)
      · intro hall; exact absurd h (hall p (List.mem_cons_self p rest))
    · rw [if_neg h]
      constructor
      · intro hc q hq
        rcases List.mem_cons.mp hq with rfl | hq
        · exact h
        · exact ((ih (i + 1) sh).mp hc) q hq
      · intro hall
        exact (ih (i + 1) sh).mpr fun q hq => hall q (List.mem_cons_of_mem p hq)

/-- Membership of the incoming peak in the buffer returned by add_peak:
it is present unless the buffer is full and no incumbent is strictly
smaller. -/
theorem add_peak_mem (peak_buffer : List Peak) (new_peak : Peak)
    (hnot : new_peak ∉ peak_buffer) :
    new_peak ∈ add_peak peak_buffer new_peak ↔
      peak_buffer.length ≠ MAX_NUM_PEAKS ∨ ∃ p ∈ peak_buffer, p.height < new_peak.height := by
  unfold add_peak
  by_cases hfull : peak_buffer.length = MAX_NUM_PEAKS
  · rw [if_pos hfull]
    rcases hfind : find_smallest peak_buffer 0 new_peak.height none with _ | j
    · simp only [hfind]
      constructor
      · intro h; exact absurd h hnot
      · rintro (h | ⟨p, hp, hlt⟩)
        · exact absurd hfull h
        · exact absurd hlt (((find_smallest_none_iff peak_buffer 0 new_peak.height).mp hfind) p hp)
    · simp only [hfind]
      constructor
      · intro _
        right
        by_contra hno
        push_neg at hno
        have : find_smallest peak_buffer 0 new_peak.height none = none :=
          (find_smallest_none_iff peak_buffer 0 new_peak.height).mpr
            fun p hp => not_lt.mpr (hno p hp)
        rw [hfind] at this
        exact Option.some_ne_none j this
      · intro _
        exact List.mem_append_right _ (List.mem_singleton.mpr rfl)
  · rw [if_neg hfull]
    exact ⟨fun _ => Or.inl hfull,
      fun _ => List.mem_append_right _ (List.mem_singleton.mpr rfl)⟩

theorem check_peaks_peak_threshold (st : ScanState) (flags : ℕ) :
    (check_peaks st flags).1.peak_threshold = st.peak_threshold := rfl

/-- Counterexample to claim C3: from the initial threshold 30, a closed
peak of height 45 (normal mode, empty buffer) is not inserted — by both
the claim's gates and the code's — yet the code multiplies the threshold
by 1.01, while the claim says the threshold is bumped exactly when a peak
is accepted into the buffer. -/
theorem C3_counterexample :
    (close_peak
        { time := 0, area := 45, width := 0, height := 45, filter_hits := 0,
          filtered_level := 0 } 30 [] 0).2.1 = [] ∧
    (close_peak
        { time := 0, area := 45, width := 0, height := 45, filter_hits := 0,
          filtered_level := 0 } 30 [] 0).1 ≠ 30 := by
  constructor
  · with_unfolding_all decide
  · with_unfolding_all decide

/-- Claim C3 as amended: on close, the threshold is multiplied by 1.01
whenever the height beats it — whether or not the peak is then inserted —
and the peak is inserted exactly when its height beats both the old
threshold and the bumped threshold times the scaling, except that it is
discarded when the buffer is full of 16 peaks none of which is strictly
smaller; at each 100 ms analysis tick the threshold is additionally
multiplied by 0.999. -/
theorem C3_threshold_amended (current_peak : Peak) (peak_threshold : ℚ)
    (peak_buffer : List Peak) (flags : ℕ)
    (hlen : peak_buffer.length ≤ MAX_NUM_PEAKS)
    (hnot : { current_peak with
        width := Int.tdiv current_peak.area current_peak.height } ∉ peak_buffer) :
    ((close_peak current_peak peak_threshold peak_buffer flags).1 =
      if (current_peak.height : ℚ) > peak_threshold then peak_threshold * 1.01
      else peak_threshold) ∧
    ({ current_peak with width := Int.tdiv current_peak.area current_peak.height } ∈
        (close_peak current_peak peak_threshold peak_buffer flags).2.1 ↔
      (current_peak.height : ℚ) > peak_threshold ∧
      (current_peak.height : ℚ) > peak_threshold * 1.01 * threshold_scaling flags ∧
      (peak_buffer.length < MAX_NUM_PEAKS ∨
        ∃ p ∈ peak_buffer, p.height < current_peak.height)) ∧
    (∀ (st : ScanState) (x : ℤ) (has_out : Bool),
      (step st x has_out flags).1.peak_threshold =
        if (step_sample st x has_out flags).1.sample_index % ANALYSIS_INTERVAL = 0 then
          (step_sample st x has_out flags).1.peak_threshold * 0.999
        else (step_sample st x has_out flags).1.peak_threshold) := by
  refine ⟨?_, ?_, ?_⟩
  · unfold close_peak
    dsimp only
    by_cases h1 : (current_peak.height : ℚ) > peak_threshold
    · rw [if_pos h1, if_pos h1]
      split <;> rfl
    · rw [if_neg h1, if_neg h1]
  · unfold close_peak
    dsimp only
    by_cases h1 : (current_peak.height : ℚ) > peak_threshold
    · rw [if_pos h1]
      by_cases h2 : (current_peak.height : ℚ) > peak_threshold * 1.01 * threshold_scaling flags
      · rw [if_pos h2]
        rw [add_peak_mem _ _ hnot]
        constructor
        · rintro (hne | ⟨p, hp, hlt⟩)
          · exact ⟨h1, h2, Or.inl (lt_of_le_of_ne hlen hne), ⟩
          · exact ⟨h1, h2, Or.inr ⟨p, hp, hlt⟩⟩
        · rintro ⟨-, -, hsp | ⟨p, hp, hlt⟩⟩
          · exact Or.inl (ne_of_lt hsp)
          · exact Or.inr ⟨p, hp, hlt⟩
      · rw [if_neg h2]
        constructor
        · intro h; exact absurd h hnot
        · rintro ⟨-, hc, -⟩; exact absurd hc h2
    · rw [if_neg h1]
      constructor
      · intro h; exact absurd h hnot
      · rintro ⟨hc, -, -⟩; exact absurd hc h1
  · intro st x has_out
    unfold step
    dsimp only
    by_cases htick : (step_sample st x has_out flags).1.sample_index % ANALYSIS_INTERVAL = 0
    · rw [if_pos htick]
      split
      · rw [check_peaks_peak_threshold]
      · rw [check_peaks_peak_threshold]
    · rw [if_neg htick]
      split
      · rfl
      · rfl

/-- Witness for C3_threshold_amended at a concrete input. -/
theorem C3_threshold_amended_witness :
    (([] : List Peak).length ≤ MAX_NUM_PEAKS ∧
      ({ time := 0, area := 45, width := 0, height := 45, filter_hits := 0,
          filtered_level := 0 } : Peak) ∉ ([] : List Peak)) ∧
    ((close_peak
        { time := 0, area := 45, width := 0, height := 45, filter_hits := 0,
          filtered_level := 0 } 30 [] 0).1 =
      if ((45 : ℤ) : ℚ) > 30 then (30 : ℚ) * 1.01 else 30) := by
  refine ⟨⟨by decide, by decide⟩, ?_⟩
  have h := (C3_threshold_amended
    { time := 0, area := 45, width := 0, height := 45, filter_hits := 0, filtered_level := 0 }
    30 [] 0 (by decide) (by decide)).1
  exact h

end EDog

namespace EDog

/-! ### Claim C5: the closed-peak record -/

/-- One peak-extraction step preserves the open-peak invariant
`peak_started ≠ 0 → area and height positive` and only closes records
with positive area and height. -/
theorem peak_stage_inv (peak_started : ℤ) (current_peak : Peak) (window_level : ℤ)
    (filtered_level : ℚ) (sample_index : ℤ) (peak_threshold : ℚ)
    (peak_buffer : List Peak) (flags : ℕ)
    (hinv : peak_started ≠ 0 → 0 < current_peak.area ∧ 0 < current_peak.height) :
    ((peak_stage peak_started current_peak window_level filtered_level sample_index
        peak_threshold peak_buffer flags).peak_started ≠ 0 →
      0 < (peak_stage peak_started current_peak window_level filtered_level sample_index
        peak_threshold peak_buffer flags).current_peak.area ∧
      0 < (peak_stage peak_started current_peak window_level filtered_level sample_index
        peak_threshold peak_buffer flags).current_peak.height) ∧
    (∀ p ∈ (peak_stage peak_started current_peak window_level filtered_level sample_index
        peak_threshold peak_buffer flags).closed.toList,
      0 < p.area ∧ 0 < p.height) := by
  unfold peak_stage
  by_cases c1 : peak_started ≠ 0 ∨ window_level > 0
  · rw [if_pos c1]
    by_cases c2 : peak_started = 0
    · rw [if_pos c2]
      have hwl : window_level > 0 := by
        rcases c1 with h | h
        · exact absurd c2 h
        · exact h
      exact ⟨fun _ => ⟨hwl, hwl⟩, by simp⟩
    · rw [if_neg c2]
      have hcur := hinv c2
      by_cases c3 : window_level > current_peak.height
      · rw [if_pos c3]
        exact ⟨fun _ => ⟨hcur.1, lt_trans hcur.2 c3⟩, by simp⟩
      · rw [if_neg c3]
        by_cases c4 : window_level ≤ 0
        · rw [if_pos c4]
          refine ⟨fun h => absurd rfl h, ?_⟩
          intro p hp
          simp only [Option.toList_some, List.mem_singleton] at hp
          subst hp
          exact hcur
        · rw [if_neg c4]
          refine ⟨fun _ => ⟨?_, hcur.2⟩, by simp⟩
          have : 0 < window_level := lt_of_not_le c4
          exact add_pos hcur.1 this
  · rw [if_neg c1]
    exact ⟨hinv, by simp⟩

theorem peak_stage_run_pos (inputs : List (ℤ × ℚ × ℤ)) :
    ∀ (peak_started : ℤ) (current_peak : Peak) (peak_threshold : ℚ)
      (peak_buffer : List Peak) (flags : ℕ),
      (peak_started ≠ 0 → 0 < current_peak.area ∧ 0 < current_peak.height) →
      ∀ r ∈ peak_stage_run peak_started current_peak peak_threshold peak_buffer flags inputs,
        0 < r.area ∧ 0 < r.height := by
  induction inputs with
  | nil =>
    intro _ _ _ _ _ _ r hr
    simp [peak_stage_run] at hr
  | cons hd rest ih =>
    rcases hd with ⟨window_level, filtered_level, sample_index⟩
    intro peak_started current_peak peak_threshold peak_buffer flags hinv r hr
    have hstep := peak_stage_inv peak_started current_peak window_level filtered_level
      sample_index peak_threshold peak_buffer flags hinv
    simp only [peak_stage_run, List.mem_append] at hr
    rcases hr with hr | hr
    · exact hstep.2 r hr
    · exact ih _ _ _ _ _ hstep.1 r hr

/-- Counterexample to claim C5: feeding window levels 1, 5, 0 to the peak
extractor (from the reset state) closes a record with area 1 but height 5,
so `area ≥ height` fails at close — a sample that raises the running
maximum does not add to the area. -/
theorem C5_counterexample :
    peak_stage_run 0 default 30 [] 0 [(1, 0, 0), (5, 0, 1), (0, 0, 2)] =
      [{ time := 1, area := 1, width := 0, height := 5, filter_hits := 0,
         filtered_level := 0 }] ∧
    ¬(({ time := 1, area := 1, width := 0, height := 5, filter_hits := 0,
         filtered_level := 0 } : Peak).area ≥
      ({ time := 1, area := 1, width := 0, height := 5, filter_hits := 0,
         filtered_level := 0 } : Peak).height) := by
  constructor
  · with_unfolding_all decide
  · decide

/-- Claim C5 as amended: every peak record at the moment its excursion
closes has positive area and positive height (but not necessarily
`area ≥ height`, since samples that raise the maximum do not add to the
area). -/
theorem C5_closed_peak_amended (inputs : List (ℤ × ℚ × ℤ)) (current_peak : Peak)
    (peak_threshold : ℚ) (peak_buffer : List Peak) (flags : ℕ) :
    ∀ r ∈ peak_stage_run 0 current_peak peak_threshold peak_buffer flags inputs,
      0 < r.area ∧ 0 < r.height :=
  peak_stage_run_pos inputs 0 current_peak peak_threshold peak_buffer flags
    (fun h => absurd rfl h)

/-- Witness for C5_closed_peak_amended at a concrete input. -/
theorem C5_closed_peak_amended_witness :
    ({ time := 0, area := 1, width := 0, height := 1, filter_hits := 0,
       filtered_level := 0 } : Peak) ∈
      peak_stage_run 0 default 30 [] 0 [(1, 0, 0), (0, 0, 1)] ∧
    (0 < ({ time := 0, area := 1, width := 0, height := 1, filter_hits := 0,
            filtered_level := 0 } : Peak).area ∧
     0 < ({ time := 0, area := 1, width := 0, height := 1, filter_hits := 0,
            filtered_level := 0 } : Peak).height) :=
  ⟨by with_unfolding_all decide,
   C5_closed_peak_amended [(1, 0, 0), (0, 0, 1)] default 30 [] 0 _
     (by with_unfolding_all decide)⟩

end EDog

namespace EDog

/-! ### Claim C7: batching idempotence -/

theorem scan_audio_append (st : ScanState) (S1 S2 : List ℤ) (has_out : Bool) (flags : ℕ) :
    scan_audio st (S1 ++ S2) has_out flags =
      ((scan_audio (scan_audio st S1 has_out flags).1 S2 has_out flags).1,
       (scan_audio st S1 has_out flags).2.1 |||
         (scan_audio (scan_audio st S1 has_out flags).1 S2 has_out flags).2.1,
       (scan_audio st S1 has_out flags).2.2 ++
         (scan_audio (scan_audio st S1 has_out flags).1 S2 has_out flags).2.2) := by
  induction S1 generalizing st with
  | nil => simp [scan_audio]
  | cons x rest ih =>
    simp only [List.cons_append, scan_audio, List.append_eq]
    rw [ih]
    simp [Nat.lor_assoc, List.append_assoc]

/-- Claim C7: feeding any partition of a stream batch by batch yields the
same final state as one call on the whole stream, with the returned
detection masks OR-ing to the mask of the single call and the diagnostic
writes concatenating; in particular scanning S1 then S2 is equivalent to
scanning S1 ++ S2. -/
theorem C7_batching (st : ScanState) (batches : List (List ℤ)) (has_out : Bool) (flags : ℕ) :
    scan_batches st batches has_out flags = scan_audio st batches.flatten has_out flags := by
  induction batches generalizing st with
  | nil => simp [scan_batches, scan_audio]
  | cons b rest ih =>
    simp only [scan_batches, List.flatten_cons]
    rw [ih, scan_audio_append]

end EDog

namespace EDog

/-! ### Claim C8: the window-sum invariant -/

theorem step_window (st : ScanState) (x : ℤ) (has_out : Bool) (flags : ℕ) :
    ∃ e, (step st x has_out flags).1.sample_window =
        st.sample_window.set st.window_index e ∧
      (step st x has_out flags).1.window_sum =
        st.window_sum - st.sample_window.getD st.window_index 0 + e ∧
      (step st x has_out flags).1.window_index = (st.window_index + 1) % WINDOW_SIZE := by
  unfold step step_sample check_peaks
  dsimp only
  split_ifs <;> exact ⟨_, rfl, rfl, rfl⟩

theorem step_window_inv (st : ScanState) (x : ℤ) (has_out : Bool) (flags : ℕ)
    (h : window_inv st) : window_inv (step st x has_out flags).1 := by
  obtain ⟨e, hw, hs, hi⟩ := step_window st x has_out flags
  obtain ⟨hlen, hidx, hsum⟩ := h
  refine ⟨?_, ?_, ?_⟩
  · rw [hw, List.length_set, hlen]
  · rw [hi]
    exact Nat.mod_lt _ (by norm_num [WINDOW_SIZE])
  · have hidx' : st.window_index < st.sample_window.length := hlen ▸ hidx
    rw [hs, hw, hsum, List.sum_set', dif_pos hidx',
      List.getD_eq_getElem st.sample_window 0 hidx']
    ring

theorem scan_audio_window_inv (in_samples : List ℤ) :
    ∀ (st : ScanState) (has_out : Bool) (flags : ℕ), window_inv st →
      window_inv (scan_audio st in_samples has_out flags).1 := by
  induction in_samples with
  | nil => intro st _ _ h; exact h
  | cons x rest ih =>
    intro st has_out flags h
    exact ih _ has_out flags (step_window_inv st x has_out flags h)

/-- Claim C8: after every processed sample (i.e. after scanning any stream
from the reset state), `window_sum` equals the arithmetic sum of the 256
entries of `sample_window`. -/
theorem C8_window_sum (in_samples : List ℤ) (has_out : Bool) (flags : ℕ) :
    (scan_audio initState in_samples has_out flags).1.window_sum =
      (scan_audio initState in_samples has_out flags).1.sample_window.sum ∧
    (scan_audio initState in_samples has_out flags).1.sample_window.length = WINDOW_SIZE := by
  have h := scan_audio_window_inv in_samples initState has_out flags
    ⟨by simp [initState], by norm_num [initState, WINDOW_SIZE], by simp [initState]⟩
  exact ⟨h.2.2, h.1⟩

end EDog

namespace EDog

/-! ### Claim C9: positivity of the decorrelated level -/

theorem step_decorrelated_level (st : ScanState) (x : ℤ) (has_out : Bool) (flags : ℕ) :
    (step st x has_out flags).1.decorrelated_level =
      st.decorrelated_level * (255 / 256) +
        ((|(decorrelate st.weight st.last_sample x).1| : ℤ) : ℚ) * (1 / 256) := by
  unfold step step_sample check_peaks
  dsimp only
  split_ifs <;> rfl

theorem step_last_sample (st : ScanState) (x : ℤ) (has_out : Bool) (flags : ℕ) :
    (step st x has_out flags).1.last_sample = toInt16 x := by
  unfold step step_sample check_peaks
  dsimp only
  split_ifs <;> rfl

theorem step_level_pos (st : ScanState) (x : ℤ) (has_out : Bool) (flags : ℕ)
    (h : 0 < st.decorrelated_level) : 0 < (step st x has_out flags).1.decorrelated_level := by
  rw [step_decorrelated_level]
  have h1 : (0 : ℚ) < st.decorrelated_level * (255 / 256) := by
    apply mul_pos h
    norm_num
  have h2 : (0 : ℚ) ≤ ((|(decorrelate st.weight st.last_sample x).1| : ℤ) : ℚ) * (1 / 256) := by
    apply mul_nonneg
    · exact_mod_cast abs_nonneg (decorrelate st.weight st.last_sample x).1
    · norm_num
  linarith

/-- Claim C9 as amended: the decorrelated level stays strictly positive on
every input stream — it starts at 32760 and each update is a positive
combination — so the normalizer never divides by zero.  (The source has no
clamp; see the counterexample.) -/
theorem C9_level_positive (in_samples : List ℤ) (has_out : Bool) (flags : ℕ) :
    0 < (scan_audio initState in_samples has_out flags).1.decorrelated_level := by
  suffices h : ∀ (st : ScanState), 0 < st.decorrelated_level →
      0 < (scan_audio st in_samples has_out flags).1.decorrelated_level by
    exact h initState (by norm_num [initState])
  induction in_samples with
  | nil => intro st h; exact h
  | cons x rest ih =>
    intro st h
    exact ih _ (step_level_pos st x has_out flags h)

theorem step_zero_level (st : ScanState) (has_out : Bool) (flags : ℕ)
    (h : st.last_sample = 0) :
    (step st 0 has_out flags).1.decorrelated_level = st.decorrelated_level * (255 / 256) ∧
    (step st 0 has_out flags).1.last_sample = 0 := by
  have hy : (decorrelate st.weight st.last_sample 0).1 = 0 := by
    rw [h]
    unfold decorrelate
    dsimp only
    rw [show ((st.weight * 0 + 512) >>> (10 : ℤ)) = 0 by
      rw [mul_zero, zero_add]; with_unfolding_all decide]
    rw [show toInt16 0 = 0 by with_unfolding_all decide]
    rw [sub_zero]
    with_unfolding_all decide
  constructor
  · rw [step_decorrelated_level, hy]
    norm_num
  · rw [step_last_sample]
    with_unfolding_all decide

theorem scan_zeros_level (n : ℕ) :
    ∀ (st : ScanState) (has_out : Bool) (flags : ℕ), st.last_sample = 0 →
      (scan_audio st (List.replicate n 0) has_out flags).1.decorrelated_level =
        st.decorrelated_level * (255 / 256) ^ n ∧
      (scan_audio st (List.replicate n 0) has_out flags).1.last_sample = 0 := by
  induction n with
  | zero => intro st _ _ h; exact ⟨by simp [scan_audio], h⟩
  | succ n ih =>
    intro st has_out flags h
    rw [List.replicate_succ]
    have hz := step_zero_level st has_out flags h
    have := ih (step st 0 has_out flags).1 has_out flags hz.2
    simp only [scan_audio]
    refine ⟨?_, this.2⟩
    rw [this.1, hz.1]
    ring

set_option maxRecDepth 40000 in
/-- Counterexample to claim C9's clamp: after 3000 zero samples the level
has decayed strictly below 1 (while remaining positive), so the
implementation does not clamp the decorrelated level at a minimum such
as 1.0 — positivity holds purely through the exact update. -/
theorem C9_counterexample :
    0 < (scan_audio initState (List.replicate 3000 0) false 0).1.decorrelated_level ∧
    (scan_audio initState (List.replicate 3000 0) false 0).1.decorrelated_level < 1 := by
  have h := (scan_zeros_level 3000 initState false 0 rfl).1
  rw [show initState.decorrelated_level = 32760 from rfl] at h
  rw [h]
  constructor
  · positivity
  · rw [div_pow]
    rw [show (32760 : ℚ) * ((255 : ℚ) ^ 3000 / (256 : ℚ) ^ 3000) =
        (32760 * 255 ^ 3000 : ℚ) / 256 ^ 3000 by ring]
    rw [div_lt_one (by positivity)]
    have hnat : (32760 * 255 ^ 3000 : ℕ) < 256 ^ 3000 := by with_unfolding_all decide
    exact_mod_cast hnat

end EDog

namespace EDog

/-! ### Claim C6: the reset law -/

/-- Counterexample to claim C6: after feeding one sample 1000, calling
init and then feeding the empty stream leaves `last_sample = 1000`,
whereas a fresh detector fed the same (empty) stream has
`last_sample = 0`; init does not reset the non-biquad state. -/
theorem C6_counterexample :
    (scan_audio (scan_audio_init (scan_audio initState [1000] false 0).1)
        [] false 0).1.last_sample = 1000 ∧
    (scan_audio initState [] false 0).1.last_sample = 0 ∧ (1000 : ℤ) ≠ 0 := by
  refine ⟨?_, ?_, ?_⟩ <;> with_unfolding_all decide

/-- Claim C6 as amended: scan_audio_init resets only the bell biquad, so
init-then-feed coincides with a fresh detector exactly on used states
whose non-biquad fields still equal the fresh values; in general the level
trackers, threshold, decorrelator state, window, peak buffer and sample
index persist across init. -/
theorem C6_init_amended (st : ScanState) (S : List ℤ) (has_out : Bool) (flags : ℕ)
    (h1 : st.current_peak = initState.current_peak)
    (h2 : st.peak_buffer = initState.peak_buffer)
    (h3 : st.sample_window = initState.sample_window)
    (h4 : st.sample_index = initState.sample_index)
    (h5 : st.filtered_level = initState.filtered_level)
    (h6 : st.decorrelated_level = initState.decorrelated_level)
    (h7 : st.peak_threshold = initState.peak_threshold)
    (h8 : st.peak_started = initState.peak_started)
    (h9 : st.window_index = initState.window_index)
    (h10 : st.window_sum = initState.window_sum)
    (h11 : st.last_sample = initState.last_sample)
    (h12 : st.weight = initState.weight) :
    scan_audio (scan_audio_init st) S has_out flags =
      scan_audio initState S has_out flags ∧
    (scan_audio_init st).bell_biquad = initState.bell_biquad := by
  have heq : scan_audio_init st = initState := by
    cases st
    simp only [scan_audio_init, initState] at h1 h2 h3 h4 h5 h6 h7 h8 h9 h10 h11 h12 ⊢
    simp_all
  rw [heq]
  exact ⟨rfl, rfl⟩

/-- Witness for C6_init_amended at a concrete input. -/
theorem C6_init_amended_witness :
    (initState.current_peak = initState.current_peak ∧
     initState.peak_buffer = initState.peak_buffer ∧
     initState.sample_window = initState.sample_window ∧
     initState.sample_index = initState.sample_index ∧
     initState.filtered_level = initState.filtered_level ∧
     initState.decorrelated_level = initState.decorrelated_level ∧
     initState.peak_threshold = initState.peak_threshold ∧
     initState.peak_started = initState.peak_started ∧
     initState.window_index = initState.window_index ∧
     initState.window_sum = initState.window_sum ∧
     initState.last_sample = initState.last_sample ∧
     initState.weight = initState.weight) ∧
    (scan_audio (scan_audio_init initState) [5] false 0 =
      scan_audio initState [5] false 0 ∧
     (scan_audio_init initState).bell_biquad = initState.bell_biquad) :=
  ⟨⟨rfl, rfl, rfl, rfl, rfl, rfl, rfl, rfl, rfl, rfl, rfl, rfl⟩,
   C6_init_amended initState [5] false 0 rfl rfl rfl rfl rfl rfl rfl rfl rfl rfl rfl rfl⟩

end EDog

namespace EDog

/-! ### Claim C10: diagnostic flags and taps do not influence detection -/

theorem threshold_scaling_congr {f1 f2 : ℕ}
    (h : f1 &&& SCAN_HIGH_SENSITIVITY = f2 &&& SCAN_HIGH_SENSITIVITY) :
    threshold_scaling f1 = threshold_scaling f2 := by
  unfold threshold_scaling
  rw [h]

theorem knock_max_ratio_congr {f1 f2 : ℕ}
    (h : f1 &&& SCAN_HIGH_SENSITIVITY = f2 &&& SCAN_HIGH_SENSITIVITY) :
    knock_max_ratio f1 = knock_max_ratio f2 := by
  unfold knock_max_ratio
  rw [h]

theorem spurious_rejection_ratio_congr {f1 f2 : ℕ}
    (h : f1 &&& SCAN_HIGH_SENSITIVITY = f2 &&& SCAN_HIGH_SENSITIVITY) :
    spurious_rejection_ratio f1 = spurious_rejection_ratio f2 := by
  unfold spurious_rejection_ratio
  rw [h]

theorem close_peak_congr {f1 f2 : ℕ}
    (h : f1 &&& SCAN_HIGH_SENSITIVITY = f2 &&& SCAN_HIGH_SENSITIVITY) :
    ∀ (current_peak : Peak) (peak_threshold : ℚ) (peak_buffer : List Peak),
      close_peak current_peak peak_threshold peak_buffer f1 =
        close_peak current_peak peak_threshold peak_buffer f2 := by
  intro current_peak peak_threshold peak_buffer
  unfold close_peak
  rw [threshold_scaling_congr h]

theorem peak_stage_congr {f1 f2 : ℕ}
    (h : f1 &&& SCAN_HIGH_SENSITIVITY = f2 &&& SCAN_HIGH_SENSITIVITY) :
    ∀ (peak_started : ℤ) (current_peak : Peak) (window_level : ℤ)
      (filtered_level : ℚ) (sample_index : ℤ) (peak_threshold : ℚ)
      (peak_buffer : List Peak),
      peak_stage peak_started current_peak window_level filtered_level sample_index
          peak_threshold peak_buffer f1 =
        peak_stage peak_started current_peak window_level filtered_level sample_index
          peak_threshold peak_buffer f2 := by
  intro peak_started current_peak window_level filtered_level sample_index
    peak_threshold peak_buffer
  unfold peak_stage
  rw [close_peak_congr h]

theorem knock_triple_hit_congr {f1 f2 : ℕ}
    (h : f1 &&& SCAN_HIGH_SENSITIVITY = f2 &&& SCAN_HIGH_SENSITIVITY) :
    ∀ (peak_buffer : List Peak) (sample_index : ℤ) (p1 p2 p3 : ℕ),
      knock_triple_hit peak_buffer sample_index f1 p1 p2 p3 =
        knock_triple_hit peak_buffer sample_index f2 p1 p2 p3 := by
  intro peak_buffer sample_index p1 p2 p3
  unfold knock_triple_hit
  rw [knock_max_ratio_congr h, spurious_rejection_ratio_congr h]

theorem check_peaks_congr {f1 f2 : ℕ}
    (h : f1 &&& SCAN_HIGH_SENSITIVITY = f2 &&& SCAN_HIGH_SENSITIVITY) :
    ∀ (st : ScanState), check_peaks st f1 = check_peaks st f2 := by
  intro st
  unfold check_peaks knock_phase check_knock
  simp only [knock_triple_hit_congr h]

theorem step_flags (f1 f2 : ℕ) (st : ScanState) (x : ℤ) (o1 o2 : Bool)
    (h : f1 &&& SCAN_HIGH_SENSITIVITY = f2 &&& SCAN_HIGH_SENSITIVITY) :
    (step st x o1 f1).1 = (step st x o2 f2).1 ∧
    (step st x o1 f1).2.1 = (step st x o2 f2).2.1 := by
  unfold step step_sample
  dsimp only
  rw [peak_stage_congr h, check_peaks_congr h]
  exact ⟨rfl, rfl⟩

theorem step_no_out (st : ScanState) (x : ℤ) (flags : ℕ) :
    (step st x false flags).2.2 = [] := by
  unfold step step_sample
  dsimp only
  simp

/-- Claim C10: the detection result and the final state depend on the
flags only through the SCAN_HIGH_SENSITIVITY bit and not at all on the
out_samples pointer, and nothing is written through out_samples when it is
NULL. -/
theorem C10_diagnostics (st : ScanState) (in_samples : List ℤ) (o1 o2 : Bool)
    (f1 f2 : ℕ) (h : f1 &&& SCAN_HIGH_SENSITIVITY = f2 &&& SCAN_HIGH_SENSITIVITY) :
    (scan_audio st in_samples o1 f1).1 = (scan_audio st in_samples o2 f2).1 ∧
    (scan_audio st in_samples o1 f1).2.1 = (scan_audio st in_samples o2 f2).2.1 ∧
    (scan_audio st in_samples false f1).2.2 = [] := by
  induction in_samples generalizing st with
  | nil => exact ⟨rfl, rfl, rfl⟩
  | cons x rest ih =>
    have hs := step_flags f1 f2 st x o1 o2 h
    simp only [scan_audio]
    have ihx := ih (step st x o1 f1).1
    refine ⟨?_, ?_, ?_⟩
    · rw [hs.1]
      exact (hs.1 ▸ ihx.1)
    · rw [← hs.1, ← hs.2, ihx.2.1]
    · rw [step_no_out]
      have ihz := ih (step st x false f1).1
      rw [ihz.2.2]
      rfl

end EDog

namespace EDog

/-- Witness for C10_diagnostics at a concrete input. -/
theorem C10_diagnostics_witness :
    ((1023 : ℕ) &&& SCAN_HIGH_SENSITIVITY = (1 : ℕ) &&& SCAN_HIGH_SENSITIVITY) ∧
    ((scan_audio initState [7] true 1023).1 = (scan_audio initState [7] false 1).1 ∧
     (scan_audio initState [7] true 1023).2.1 = (scan_audio initState [7] false 1).2.1 ∧
     (scan_audio initState [7] false 1023).2.2 = []) :=
  ⟨by with_unfolding_all decide,
   C10_diagnostics initState [7] true false 1023 1 (by with_unfolding_all decide)⟩

end EDog
